import Mathlib

/-!
Shallow embedding of the `session_manager` repository
(`src/models.py`, `src/session_manager.py`).

Modelling conventions:
* Python `datetime` values are `PyDatetime`: a UTC timestamp in seconds
  together with an `aware` flag.  `datetime.now(timezone.utc)` is aware,
  `datetime.utcnow()` is naive.  Comparing an aware with a naive datetime
  raises `TypeError` in Python, so the embedded comparison returns
  `Except PyErr Bool`.
* The SQLAlchemy store is a `Store`: the `users` and `sessions` tables as
  lists in insertion order (`query(...).first()` is `List.find?`), plus the
  autoincrement counters for the two integer primary keys.
* Randomness (`secrets.token_hex`) is an oracle: the random bytes are an
  explicit argument, and `token_hex` performs the hex encoding the library
  performs on them.
* Exceptions propagate to the caller; every mutating operation returns the
  resulting store next to its `Except` result, the store being unchanged on
  the error paths (the raise happens before `db.add`/`db.commit`, and the
  scoped unit of work rolls back anything uncommitted).
* The UNIQUE constraints declared on `users.username` and `sessions.token`
  in `models.py` are part of the store semantics: an insert that would
  duplicate `sessions.token` fails at `db.commit()` with `IntegrityError`.
* The `created_at` / `updated_at` audit columns are omitted: no operation of
  the engine reads them and no claim mentions them.
-/

namespace SessionMgr

/-- Python-level errors that the embedded operations can raise.
`duplicateUser u` stands for the `ValueError` raised by `create_user` whose
message names the username `u`; `userNotFound i` stands for the `ValueError`
raised by `create_session` whose message names the user id `i`
(`session_manager.py` lines 66 and 124); `typeError` is the `TypeError`
Python raises when comparing an offset-aware with an offset-naive datetime;
`integrityError` is the SQLAlchemy `IntegrityError` surfaced when a commit
violates a UNIQUE constraint. -/
inductive PyErr where
  | typeError
  | duplicateUser (username : String)
  | userNotFound (user_id : Int)
  | integrityError
deriving DecidableEq

/-- Boolean equality test on embedded Python results (`Except`). -/
def exceptEq {ε α : Type} [DecidableEq ε] [DecidableEq α] : Except ε α → Except ε α → Bool
  | .ok a, .ok b => a == b
  | .error e, .error f => e == f
  | .ok _, .error _ => false
  | .error _, .ok _ => false

theorem exceptEq_iff {ε α : Type} [DecidableEq ε] [DecidableEq α]
    (x y : Except ε α) : exceptEq x y = true ↔ x = y := by
  cases x <;> cases y <;> simp [exceptEq]

/-- Equality of embedded Python results is decidable, so that the operations
can be evaluated on concrete inputs. -/
instance {ε α : Type} [DecidableEq ε] [DecidableEq α] : DecidableEq (Except ε α) :=
  fun x y => decidable_of_iff (exceptEq x y = true) (exceptEq_iff x y)

/-- A Python `datetime`: a UTC instant (seconds) plus the timezone-awareness
flag.  `aware = true` models a datetime carrying `tzinfo` (such as
`datetime.now(timezone.utc)`); `aware = false` models a naive datetime (such
as `datetime.utcnow()`, or a value read back from SQLite, which stores no
timezone). -/
structure PyDatetime where
  aware : Bool
  ts : Int
deriving DecidableEq

/-- Python `a > b` on datetimes: raises `TypeError` when exactly one operand
is timezone-aware, otherwise compares the instants. -/
def pyGt (a b : PyDatetime) : Except PyErr Bool :=
  if a.aware == b.aware then .ok (decide (b.ts < a.ts)) else .error .typeError

/-- `models.py` `User`: id (integer primary key, autoincrement), username,
password_hash, is_active (default true). -/
structure User where
  id : Int
  username : String
  password_hash : String
  is_active : Bool
deriving DecidableEq

/-- `models.py` `Session`: id (integer primary key, autoincrement), user_id
(foreign key), token (UNIQUE), expires_at (nullable), is_revoked (default
false). -/
structure Session where
  id : Int
  user_id : Int
  token : String
  expires_at : Option PyDatetime
  is_revoked : Bool
deriving DecidableEq

/-- `models.py` `Session.is_valid` at current time `nowTs`:

    if self.is_revoked: return False
    if self.expires_at and datetime.now(timezone.utc) > self.expires_at: return False
    return True

`datetime.now(timezone.utc)` is timezone-aware, hence the aware `now` below;
a stored `expires_at` datetime is always truthy, so the `and` reduces to the
`Option` match.  The `>` can raise `TypeError`, which propagates. -/
def Session.is_valid (s : Session) (nowTs : Int) : Except PyErr Bool :=
  if s.is_revoked then .ok false
  else
    match s.expires_at with
    | none => .ok true
    | some e => (pyGt { aware := true, ts := nowTs } e).map (fun gt => !gt)

/-- The relational store backing a `SessionManager`: both tables in insertion
order plus the autoincrement counters (SQLite starts them at 1). -/
structure Store where
  users : List User
  sessions : List Session
  nextUserId : Int
  nextSessionId : Int
deriving DecidableEq

/-- The store right after `Base.metadata.create_all`: both tables empty. -/
def Store.empty : Store := { users := [], sessions := [], nextUserId := 1, nextSessionId := 1 }

/-- Modelled from the spec: `AuthManager.hash_password` lives in
`managers/auth_manager`, outside this repository.  Section 4.1 of the spec
gives the contract `hash(plaintext) -> opaque_hash`, verifiable by `verify`
and not reversible; we model it as an injective tagging so that `verify`
below satisfies exactly `verify(p, hash(q)) = (p = q)`. -/
def hash_password (password : String) : String := "hashed$" ++ password

/-- Modelled from the spec: `AuthManager.verify_password` lives in
`managers/auth_manager`, outside this repository.  Section 4.1 of the spec:
`verify(plaintext, opaque_hash) -> bool`, true exactly when the hash was
produced from the plaintext; never raises. -/
def verify_password (password hash : String) : Bool := hash == hash_password password

/-- `SessionManager.create_user`: hashes the password, checks for an existing
user with the same username, raises the duplicate-user `ValueError` if found,
otherwise inserts a new row (id from the autoincrement counter, `is_active`
defaulting to true) and returns it. -/
def create_user (st : Store) (username password : String) : Except PyErr User × Store :=
  let password_hash := hash_password password
  match st.users.find? (fun u => u.username == username) with
  | some _ => (.error (.duplicateUser username), st)
  | none =>
      let user : User :=
        { id := st.nextUserId, username := username
          password_hash := password_hash, is_active := true }
      (.ok user, { st with users := st.users ++ [user], nextUserId := st.nextUserId + 1 })

/-- `SessionManager.get_user`: lookup by username, no side effects. -/
def get_user (st : Store) (username : String) : Option User :=
  st.users.find? (fun u => u.username == username)

/-- `SessionManager.authenticate_user`: lookup by username; on a hit,
delegate to the credential verifier; `None` on a miss or a failed check. -/
def authenticate_user (st : Store) (username password : String) : Option User :=
  match st.users.find? (fun u => u.username == username) with
  | some user => if verify_password password user.password_hash then some user else none
  | none => none

/-- `SessionManager.DEFAULT_TOKEN_LENGTH = 32` (bytes handed to
`secrets.token_hex`). -/
def DEFAULT_TOKEN_LENGTH : Nat := 32

/-- `SessionManager.DEFAULT_SESSION_DURATION_DAYS = 30`. -/
def DEFAULT_SESSION_DURATION_DAYS : Int := 30

/-- Seconds in a day, the factor `timedelta(days=n)` contributes. -/
def secondsPerDay : Int := 86400

/-- The lower-case hexadecimal alphabet used by `secrets.token_hex`. -/
def hexDigits : List Char := "0123456789abcdef".toList

/-- Hex encoding of one byte: two lower-case hex digits. -/
def byteToHex (b : Nat) : List Char :=
  [hexDigits.getD (b / 16) '0', hexDigits.getD (b % 16) '0']

/-- `secrets.token_hex(n)`: the hex encoding of the `n` random bytes the OS
supplies; the randomness is the explicit `randomBytes` argument here. -/
def token_hex (randomBytes : List Nat) : String :=
  String.mk (randomBytes.map byteToHex).flatten

/-- `SessionManager.create_session`:

    token = secrets.token_hex(self.DEFAULT_TOKEN_LENGTH)
    expires_at = datetime.utcnow() + self._session_duration
    user lookup by id; raise ValueError if absent;
    insert Session(user_id, token, expires_at); commit; return token

`datetime.utcnow()` is NAIVE, so the stored expiry carries `aware := false`.
`randomBytes` is the randomness oracle (the source draws
`DEFAULT_TOKEN_LENGTH` bytes); `durationDays` is the manager's configured
`session_duration_days`.  The commit enforces the UNIQUE constraint on
`sessions.token`: a duplicate raises `IntegrityError` and persists nothing.
The `is_active` flag of the user is not consulted. -/
def create_session (st : Store) (user_id : Int) (randomBytes : List Nat)
    (nowTs durationDays : Int) : Except PyErr String × Store :=
  let token := token_hex randomBytes
  let expires_at : PyDatetime := { aware := false, ts := nowTs + durationDays * secondsPerDay }
  match st.users.find? (fun u => u.id == user_id) with
  | none => (.error (.userNotFound user_id), st)
  | some _ =>
      if st.sessions.any (fun s => s.token == token) then
        (.error .integrityError, st)
      else
        let session : Session :=
          { id := st.nextSessionId, user_id := user_id, token := token
            expires_at := some expires_at, is_revoked := false }
        (.ok token,
         { st with sessions := st.sessions ++ [session], nextSessionId := st.nextSessionId + 1 })

/-- `SessionManager.validate_session`: lookup by exact token; if found and
`is_valid`, return the owning user (`session.user`, the row the foreign key
points at); otherwise `None`.  A `TypeError` raised inside `is_valid`
propagates. -/
def validate_session (st : Store) (token : String) (nowTs : Int) : Except PyErr (Option User) :=
  match st.sessions.find? (fun s => s.token == token) with
  | none => .ok none
  | some session =>
      match session.is_valid nowTs with
      | .error e => .error e
      | .ok true => .ok (st.users.find? (fun u => u.id == session.user_id))
      | .ok false => .ok none

/-- Set `is_revoked := true` on the first session carrying `token` — the row
`query(Session).filter(Session.token == token).first()` returns. -/
def revokeFirst : List Session → String → List Session
  | [], _ => []
  | s :: rest, token =>
      if s.token == token then { s with is_revoked := true } :: rest
      else s :: revokeFirst rest token

/-- `SessionManager.revoke_session`: lookup by token; if found, set
`is_revoked = True`, commit, return `True`; otherwise return `False`. -/
def revoke_session (st : Store) (token : String) : Bool × Store :=
  match st.sessions.find? (fun s => s.token == token) with
  | some _ => (true, { st with sessions := revokeFirst st.sessions token })
  | none => (false, st)

/-- `SessionManager.revoke_sessions`: query all sessions of `user_id` with
`is_revoked == False`, set `is_revoked = True` on each, commit, return how
many were selected. -/
def revoke_sessions (st : Store) (user_id : Int) : Nat × Store :=
  let matched := st.sessions.filter (fun s => s.user_id == user_id && !s.is_revoked)
  (matched.length,
   { st with
      sessions := st.sessions.map (fun s =>
        if s.user_id == user_id && !s.is_revoked then { s with is_revoked := true } else s) })

/-- `SessionManager.login`: `authenticate_user` then `create_session` on the
authenticated user's id; `None` on authentication failure. -/
def login (st : Store) (username password : String) (randomBytes : List Nat)
    (nowTs durationDays : Int) : Except PyErr (Option String) × Store :=
  match authenticate_user st username password with
  | some user =>
      let r := create_session st user.id randomBytes nowTs durationDays
      (r.1.map some, r.2)
  | none => (.ok none, st)

/-- `SessionManager.logout`: alias for `revoke_session`. -/
def logout (st : Store) (token : String) : Bool × Store := revoke_session st token

/-- One engine operation, as a relation on stores.  Read-only operations
(`get_user`, `authenticate_user`, `validate_session`) do not change the
store; every mutating operation's resulting store is its second component,
which on the error paths is the unchanged input store. -/
inductive Step : Store → Store → Prop where
  | create_user_step (st : Store) (u p : String) :
      Step st (create_user st u p).2
  | create_session_step (st : Store) (uid : Int) (b : List Nat) (now dur : Int) :
      Step st (create_session st uid b now dur).2
  | revoke_session_step (st : Store) (t : String) :
      Step st (revoke_session st t).2
  | revoke_sessions_step (st : Store) (uid : Int) :
      Step st (revoke_sessions st uid).2
  | login_step (st : Store) (u p : String) (b : List Nat) (now dur : Int) :
      Step st (login st u p b now dur).2
  | logout_step (st : Store) (t : String) :
      Step st (logout st t).2

/-- Stores reachable from the empty store by engine operations alone. -/
inductive Reachable : Store → Prop where
  | empty : Reachable Store.empty
  | step {st st' : Store} : Reachable st → Step st st' → Reachable st'

/-! ### Concrete stores used by the witnesses and counterexamples -/

/-- A sample user row, as `create_user` would persist it. -/
def exUser : User :=
  { id := 1, username := "alice", password_hash := hash_password "secret123", is_active := true }

/-- A sample never-expiring session owned by `exUser`. -/
def exSession : Session :=
  { id := 1, user_id := 1, token := "tok", expires_at := none, is_revoked := false }

/-- A sample store holding `exUser` and `exSession`. -/
def exStore : Store :=
  { users := [exUser], sessions := [exSession], nextUserId := 2, nextSessionId := 2 }

/-! ### C2: create_user -/

/-- C2: for every username and password, if a user with the username already
exists `create_user` fails with the duplicate-user error and leaves the store
unmodified; otherwise it persists exactly one new user carrying that username
and the hash of the password, touches no session, and returns it. -/
theorem create_user_spec (st : Store) (u p : String) :
    ((∃ w ∈ st.users, w.username = u) →
        (create_user st u p).1 = .error (.duplicateUser u) ∧ (create_user st u p).2 = st)
    ∧ ((∀ w ∈ st.users, w.username ≠ u) →
        ∃ newUser,
          (create_user st u p).1 = .ok newUser
          ∧ newUser.username = u
          ∧ newUser.password_hash = hash_password p
          ∧ (create_user st u p).2.users = st.users ++ [newUser]
          ∧ (create_user st u p).2.sessions = st.sessions) := by
  cases h : st.users.find? (fun w => w.username == u) with
  | some w =>
      refine ⟨fun _ => ?_, fun hall => ?_⟩
      · simp [create_user, h]
      · exact absurd (by simpa using List.find?_some h)
          (hall w (List.mem_of_find?_eq_some h))
  | none =>
      refine ⟨fun ⟨w, hw, hwu⟩ => ?_, fun _ => ?_⟩
      · exact absurd hwu (by simpa using List.find?_eq_none.mp h w hw)
      · exact ⟨{ id := st.nextUserId, username := u,
                 password_hash := hash_password p, is_active := true },
          by simp [create_user, h], rfl, rfl,
          by simp [create_user, h], by simp [create_user, h]⟩

/-- Witness for C2 at a concrete duplicate username. -/
theorem create_user_spec_witness :
    (∃ w ∈ exStore.users, w.username = "alice")
    ∧ (create_user exStore "alice" "other").1 = .error (.duplicateUser "alice")
    ∧ (create_user exStore "alice" "other").2 = exStore :=
  ⟨by decide, ((create_user_spec exStore "alice" "other").1 (by decide)).1,
    ((create_user_spec exStore "alice" "other").1 (by decide)).2⟩

/-! ### C4: create_session and UserNotFound -/

/-- C4: `create_session` raises the user-not-found error — carrying the
offending id — exactly when no user with that id exists, and in that case no
session row is persisted: the store is unchanged. -/
theorem create_session_user_not_found (st : Store) (uid : Int) (b : List Nat)
    (now dur : Int) :
    ((create_session st uid b now dur).1 = .error (.userNotFound uid)
        ↔ ¬ ∃ u ∈ st.users, u.id = uid)
    ∧ ((¬ ∃ u ∈ st.users, u.id = uid) → (create_session st uid b now dur).2 = st) := by
  cases h : st.users.find? (fun v => v.id == uid) with
  | some v =>
      have hv : v ∈ st.users ∧ v.id = uid :=
        ⟨List.mem_of_find?_eq_some h, by simpa using List.find?_some h⟩
      constructor
      · constructor
        · intro habs
          by_cases ha : st.sessions.any (fun s => s.token == token_hex b) <;>
            simp [create_session, h, ha] at habs
        · intro habs; exact absurd ⟨v, hv.1, hv.2⟩ habs
      · intro habs; exact absurd ⟨v, hv.1, hv.2⟩ habs
  | none =>
      constructor
      · constructor
        · rintro - ⟨u, hu, huid⟩
          exact absurd huid (by simpa using List.find?_eq_none.mp h u hu)
        · intro _; simp [create_session, h]
      · intro _; simp [create_session, h]

/-- Witness for C4: the spec's scenario, user id 9999 on an empty store. -/
theorem create_session_user_not_found_witness :
    (¬ ∃ u ∈ Store.empty.users, u.id = 9999)
    ∧ (create_session Store.empty 9999 [] 0 30).1 = .error (.userNotFound 9999)
    ∧ (create_session Store.empty 9999 [] 0 30).2 = Store.empty :=
  ⟨by decide,
    (create_session_user_not_found Store.empty 9999 [] 0 30).1.mpr (by decide),
    (create_session_user_not_found Store.empty 9999 [] 0 30).2 (by decide)⟩

/-! ### C7: revoke_session -/

theorem revokeFirst_of_find?_eq_none {l : List Session} {t : String}
    (h : l.find? (fun s => s.token == t) = none) : revokeFirst l t = l := by
  induction l with
  | nil => rfl
  | cons s rest ih =>
      rw [List.find?_cons] at h
      cases hs : (s.token == t) with
      | true => simp [hs] at h
      | false =>
        rw [hs] at h
        simp [revokeFirst, hs, ih h]

theorem revokeFirst_find? {l : List Session} {t : String} {s : Session}
    (h : l.find? (fun s => s.token == t) = some s) :
    (revokeFirst l t).find? (fun s => s.token == t)
      = some { s with is_revoked := true } := by
  induction l with
  | nil => simp at h
  | cons a rest ih =>
      rw [List.find?_cons] at h
      cases ha : (a.token == t) with
      | true =>
          rw [ha] at h
          cases h
          simp [revokeFirst, ha, List.find?_cons]
      | false =>
          rw [ha] at h
          simp [revokeFirst, ha, List.find?_cons, ih h]

theorem revokeFirst_idem (l : List Session) (t : String) :
    revokeFirst (revokeFirst l t) t = revokeFirst l t := by
  induction l with
  | nil => rfl
  | cons s rest ih =>
      cases hs : (s.token == t) with
      | true => simp [revokeFirst, hs]
      | false => simp [revokeFirst, hs, ih]

/-- C7: `revoke_session` returns true exactly when a session with the token
exists, whatever its prior revoked or expiry state; it returns false and
changes nothing otherwise; it is idempotent — the repeated call returns the
same answer and the same store — and after a successful call a session with
that token is stored revoked. -/
theorem revoke_session_spec (st : Store) (t : String) :
    ((revoke_session st t).1 = true ↔ ∃ s ∈ st.sessions, s.token = t)
    ∧ ((revoke_session st t).1 = false → (revoke_session st t).2 = st)
    ∧ revoke_session (revoke_session st t).2 t
        = ((revoke_session st t).1, (revoke_session st t).2)
    ∧ ((∃ s ∈ st.sessions, s.token = t) →
        ∃ s ∈ (revoke_session st t).2.sessions, s.token = t ∧ s.is_revoked = true) := by
  cases h : st.sessions.find? (fun s => s.token == t) with
  | none =>
      refine ⟨⟨fun hr => ?_, fun ⟨s, hs, hst⟩ => ?_⟩, fun _ => ?_, ?_, fun ⟨s, hs, hst⟩ => ?_⟩
      · simp [revoke_session, h] at hr
      · exact absurd hst (by simpa using List.find?_eq_none.mp h s hs)
      · simp [revoke_session, h]
      · simp [revoke_session, h]
      · exact absurd hst (by simpa using List.find?_eq_none.mp h s hs)
  | some s =>
      have hmem : { s with is_revoked := true } ∈ revokeFirst st.sessions t :=
        List.mem_of_find?_eq_some (revokeFirst_find? h)
      have htok : s.token = t := by simpa using List.find?_some h
      refine ⟨⟨fun _ => ⟨s, List.mem_of_find?_eq_some h, htok⟩, fun _ => ?_⟩,
        fun hr => ?_, ?_, fun _ => ?_⟩
      · simp [revoke_session, h]
      · simp [revoke_session, h] at hr
      · simp [revoke_session, h, revokeFirst_find? h, revokeFirst_idem]
      · exact ⟨{ s with is_revoked := true }, by simpa [revoke_session, h] using hmem,
          htok, rfl⟩

/-- Witness for C7 at a concrete stored token. -/
theorem revoke_session_spec_witness :
    (∃ s ∈ exStore.sessions, s.token = "tok")
    ∧ (∃ s ∈ (revoke_session exStore "tok").2.sessions,
        s.token = "tok" ∧ s.is_revoked = true) :=
  ⟨by decide, (revoke_session_spec exStore "tok").2.2.2 (by decide)⟩

/-! ### C6: revoke_sessions -/

theorem revoke_sessions_count (st : Store) (uid : Int) :
    (revoke_sessions st uid).1
      = st.sessions.countP (fun s => s.user_id == uid && !s.is_revoked) := by
  rw [List.countP_eq_length_filter]
  rfl

theorem revoke_sessions_sessions (st : Store) (uid : Int) :
    (revoke_sessions st uid).2.sessions
      = st.sessions.map (fun s =>
          if s.user_id == uid && !s.is_revoked then { s with is_revoked := true } else s) :=
  rfl

theorem revokeCond_eq (s : Session) (uid : Int) :
    (if s.user_id == uid && !s.is_revoked then { s with is_revoked := true } else s)
      = (if s.user_id = uid ∧ s.is_revoked = false
         then { s with is_revoked := true } else s) := by
  by_cases h : s.user_id = uid ∧ s.is_revoked = false
  · rw [if_pos h, if_pos (by simp [h.1, h.2])]
  · rw [if_neg h, if_neg (by simpa [Bool.and_eq_true, Bool.not_eq_true'] using h)]

theorem second_pass_zero (l : List Session) (uid : Int) :
    (l.map (fun s =>
        if s.user_id == uid && !s.is_revoked then { s with is_revoked := true } else s)).countP
      (fun s => s.user_id == uid && !s.is_revoked) = 0 := by
  rw [List.countP_eq_zero]
  intro a ha
  rw [List.mem_map] at ha
  obtain ⟨s, _, rfl⟩ := ha
  by_cases h : (s.user_id == uid && !s.is_revoked) = true
  · simp only [if_pos h]
    simp
  · simp only [if_neg h]
    exact h

/-- C6: `revoke_sessions` returns the number of the user's previously
non-revoked sessions, flips `is_revoked` on exactly those rows — every other
row, other users' sessions and already-revoked ones alike, is kept unchanged
position by position — leaves the user table alone, and an immediately
repeated call on the same user returns 0. -/
theorem revoke_sessions_spec (st : Store) (uid : Int) :
    (revoke_sessions st uid).1
        = st.sessions.countP (fun s => s.user_id == uid && !s.is_revoked)
    ∧ (∀ i : Nat, ∀ s : Session, st.sessions[i]? = some s →
        (revoke_sessions st uid).2.sessions[i]?
          = some (if s.user_id = uid ∧ s.is_revoked = false
                  then { s with is_revoked := true } else s))
    ∧ (revoke_sessions (revoke_sessions st uid).2 uid).1 = 0
    ∧ (revoke_sessions st uid).2.users = st.users := by
  refine ⟨revoke_sessions_count st uid, ?_, ?_, rfl⟩
  · intro i s hi
    rw [revoke_sessions_sessions, List.getElem?_map, hi]
    simp [revokeCond_eq]
  · rw [revoke_sessions_count, revoke_sessions_sessions]
    exact second_pass_zero st.sessions uid

/-- Witness for C6 at the sample store. -/
theorem revoke_sessions_spec_witness :
    exStore.sessions[0]? = some exSession
    ∧ (revoke_sessions exStore 1).2.sessions[0]?
        = some { exSession with is_revoked := true } :=
  ⟨rfl, ((revoke_sessions_spec exStore 1).2.1 0 exSession rfl).trans (by decide)⟩

/-! ### C5: token and expiry shape of create_session -/

theorem hexDigits_getD_mem (n : Nat) : hexDigits.getD n '0' ∈ hexDigits := by
  rcases Nat.lt_or_ge n 16 with h | h
  · interval_cases n <;> decide
  · rw [List.getD_eq_default]
    · decide
    · simpa [hexDigits] using h

theorem flatten_byteToHex_length (b : List Nat) :
    ((b.map byteToHex).flatten).length = 2 * b.length := by
  induction b with
  | nil => rfl
  | cons x xs ih =>
      simp only [List.map_cons, List.flatten_cons, List.length_append, ih, byteToHex,
        List.length_cons, List.length_nil]
      omega

theorem token_hex_length (b : List Nat) : (token_hex b).length = 2 * b.length :=
  flatten_byteToHex_length b

theorem token_hex_chars (b : List Nat) : ∀ c ∈ (token_hex b).toList, c ∈ hexDigits := by
  intro c hc
  have hc2 : c ∈ (b.map byteToHex).flatten := hc
  rw [List.mem_flatten] at hc2
  obtain ⟨l, hl, hcl⟩ := hc2
  rw [List.mem_map] at hl
  obtain ⟨x, _, rfl⟩ := hl
  simp only [byteToHex, List.mem_cons, List.not_mem_nil, or_false] at hcl
  rcases hcl with rfl | rfl <;> exact hexDigits_getD_mem _

/-- Thirty-two zero bytes: one concrete draw of the randomness oracle. -/
def zeroBytes : List Nat := List.replicate DEFAULT_TOKEN_LENGTH 0

/-- C5: whenever `create_session` succeeds, the token it returns is the hex
encoding of the `DEFAULT_TOKEN_LENGTH = 32` random bytes drawn — hence, under
the default, a 64-character string over the hexadecimal alphabet — and the
persisted session stores that token together with an expiry equal to the
current time plus the configured duration (`DEFAULT_SESSION_DURATION_DAYS =
30` days by default). -/
theorem create_session_token_shape (st : Store) (uid : Int) (b : List Nat)
    (now dur : Int) (t : String)
    (hlen : b.length = DEFAULT_TOKEN_LENGTH)
    (hok : (create_session st uid b now dur).1 = .ok t) :
    t = token_hex b
    ∧ t.length = 64
    ∧ (∀ c ∈ t.toList, c ∈ hexDigits)
    ∧ (∃ s ∈ (create_session st uid b now dur).2.sessions,
        s.token = t
        ∧ s.expires_at = some { aware := false, ts := now + dur * secondsPerDay })
    ∧ DEFAULT_TOKEN_LENGTH = 32 ∧ DEFAULT_SESSION_DURATION_DAYS = 30 := by
  cases hf : st.users.find? (fun v => v.id == uid) with
  | none => simp [create_session, hf] at hok
  | some v =>
      cases ha : st.sessions.any (fun s => s.token == token_hex b) with
      | true => simp [create_session, hf, ha] at hok
      | false =>
          have ht : token_hex b = t := by
            simpa [create_session, hf, ha] using hok
          subst ht
          refine ⟨rfl, by rw [token_hex_length, hlen]; rfl,
            token_hex_chars b, ?_, rfl, rfl⟩
          refine ⟨{ id := st.nextSessionId, user_id := uid, token := token_hex b,
                    expires_at := some { aware := false, ts := now + dur * secondsPerDay },
                    is_revoked := false }, ?_, rfl, rfl⟩
          simp [create_session, hf, ha]

/-- Witness for C5 at the sample store and the all-zero random draw. -/
theorem create_session_token_shape_witness :
    zeroBytes.length = DEFAULT_TOKEN_LENGTH
    ∧ (create_session exStore 1 zeroBytes 0 30).1 = .ok (token_hex zeroBytes)
    ∧ (token_hex zeroBytes).length = 64 :=
  ⟨by decide, rfl,
    (create_session_token_shape exStore 1 zeroBytes 0 30 (token_hex zeroBytes)
      (by decide) rfl).2.1⟩

/-! ### C3: global token uniqueness across all reachable stores -/

/-- The token column of the sessions table. -/
def storeTokens (st : Store) : List String := st.sessions.map Session.token

theorem create_user_sessions_eq (st : Store) (u p : String) :
    (create_user st u p).2.sessions = st.sessions := by
  cases h : st.users.find? (fun w => w.username == u) <;> simp [create_user, h]

theorem revokeFirst_map_token (l : List Session) (t : String) :
    (revokeFirst l t).map Session.token = l.map Session.token := by
  induction l with
  | nil => rfl
  | cons s rest ih =>
      cases hs : (s.token == t) with
      | true => simp [revokeFirst, hs]
      | false => simp [revokeFirst, hs, ih]

theorem revoke_session_map_token (st : Store) (t : String) :
    (revoke_session st t).2.sessions.map Session.token
      = st.sessions.map Session.token := by
  cases h : st.sessions.find? (fun s => s.token == t) with
  | none => simp [revoke_session, h]
  | some s => simp [revoke_session, h, revokeFirst_map_token]

theorem revoke_sessions_map_token (st : Store) (uid : Int) :
    (revoke_sessions st uid).2.sessions.map Session.token
      = st.sessions.map Session.token := by
  rw [revoke_sessions_sessions, List.map_map]
  apply List.map_congr_left
  intro s _
  by_cases h : (s.user_id == uid && !s.is_revoked) = true <;>
    simp [Function.comp, h, Session.token]

theorem create_session_tokens_nodup (st : Store) (uid : Int) (b : List Nat)
    (now dur : Int) (h : (storeTokens st).Nodup) :
    (storeTokens (create_session st uid b now dur).2).Nodup := by
  unfold storeTokens at *
  cases hf : st.users.find? (fun v => v.id == uid) with
  | none => simpa [create_session, hf] using h
  | some v =>
      cases ha : st.sessions.any (fun s => s.token == token_hex b) with
      | true => simpa [create_session, hf, ha] using h
      | false =>
          have hnotin : token_hex b ∉ st.sessions.map Session.token := by
            rw [List.any_eq_false] at ha
            intro hmem
            rw [List.mem_map] at hmem
            obtain ⟨s, hs, hst⟩ := hmem
            exact ha s hs (by simp [hst])
          simp only [create_session, hf, ha]
          rw [if_neg Bool.false_ne_true]
          rw [List.map_append]
          rw [List.nodup_append]
          exact ⟨h, List.nodup_singleton _, by
            intro x hx hx1
            simp only [List.map_cons, List.map_nil, List.mem_singleton] at hx1
            subst hx1
            exact hnotin hx⟩

theorem login_store (st : Store) (u p : String) (b : List Nat) (now dur : Int) :
    (login st u p b now dur).2 = st
    ∨ ∃ uid, (login st u p b now dur).2 = (create_session st uid b now dur).2 := by
  cases h : authenticate_user st u p with
  | none => left; simp [login, h]
  | some user => right; exact ⟨user.id, by simp [login, h]⟩

theorem step_tokens_nodup {st st' : Store} (hs : Step st st')
    (h : (storeTokens st).Nodup) : (storeTokens st').Nodup := by
  cases hs with
  | create_user_step u p =>
      unfold storeTokens
      rw [create_user_sessions_eq]
      exact h
  | create_session_step uid b now dur =>
      exact create_session_tokens_nodup st uid b now dur h
  | revoke_session_step t =>
      unfold storeTokens
      rw [revoke_session_map_token]
      exact h
  | revoke_sessions_step uid =>
      unfold storeTokens
      rw [revoke_sessions_map_token]
      exact h
  | login_step u p b now dur =>
      rcases login_store st u p b now dur with heq | ⟨uid, heq⟩
      · rw [storeTokens, heq]; exact h
      · rw [storeTokens, heq]
        exact create_session_tokens_nodup st uid b now dur h
  | logout_step t =>
      unfold storeTokens
      rw [logout, revoke_session_map_token]
      exact h

theorem reachable_tokens_nodup {st : Store} (h : Reachable st) :
    (storeTokens st).Nodup := by
  induction h with
  | empty => simp [storeTokens, Store.empty]
  | step _ hs ih => exact step_tokens_nodup hs ih

/-- C3: in every store reachable from the empty store through the engine's
own operations, stored sessions have pairwise distinct token values — even
sessions of the same user, revoked, or expired, and a token value is never
reused for a later session. -/
theorem token_uniqueness_invariant {st : Store} (h : Reachable st) :
    st.sessions.Pairwise (fun s1 s2 => s1.token ≠ s2.token) := by
  have hn := reachable_tokens_nodup h
  rw [storeTokens, List.Nodup, List.pairwise_map] at hn
  exact hn

/-! ### Engine-built concrete stores -/

/-- The store after `create_user("alice", "secret123")` on the empty store. -/
def aliceStore : Store := (create_user Store.empty "alice" "secret123").2

/-- The engine's token for the all-zero random draw: 64 zero characters. -/
def tok64 : String := token_hex zeroBytes

/-- The store after `create_session(1)` (alice's id) at time 1000 with the
default 30-day duration; the stored expiry is the naive 1000 + 30·86400. -/
def aliceSessStore : Store := (create_session aliceStore 1 zeroBytes 1000 30).2

/-- Thirty-two one-bytes: a second, distinct draw of the randomness oracle. -/
def oneBytes : List Nat := List.replicate DEFAULT_TOKEN_LENGTH 1

/-- The store after a second `create_session(1)` with the second draw. -/
def twoSessStore : Store := (create_session aliceSessStore 1 oneBytes 1000 30).2

/-- Witness for C3 at a concrete reachable two-session store. -/
theorem token_uniqueness_invariant_witness :
    twoSessStore.sessions.Pairwise (fun s1 s2 => s1.token ≠ s2.token) :=
  token_uniqueness_invariant
    (Reachable.step
      (Reachable.step
        (Reachable.step Reachable.empty
          (Step.create_user_step Store.empty "alice" "secret123"))
        (Step.create_session_step aliceStore 1 zeroBytes 1000 30))
      (Step.create_session_step aliceSessStore 1 oneBytes 1000 30))

/-! ### C1, C8, C10: the aware/naive datetime comparison -/

/-- C1 (code evaluation at the failing input): in `aliceSessStore` the
session with token `tok64` meets every condition under which the claim says
`validate_session` returns the owning user — the token matches exactly, the
session is not revoked, and the current time 2000 is not strictly after the
stored expiry 2593000 — yet `validate_session` raises `TypeError` instead of
returning the user: `create_session` stored a naive (`datetime.utcnow()`)
expiry while `Session.is_valid` compares it against the aware
`datetime.now(timezone.utc)`. -/
theorem validate_session_raises_on_valid_session :
    (∃ s ∈ aliceSessStore.sessions, s.token = tok64 ∧ s.is_revoked = false
        ∧ s.expires_at = some { aware := false, ts := 2593000 })
    ∧ ¬ ((2593000 : Int) < 2000)
    ∧ validate_session aliceSessStore tok64 2000 = .error .typeError := by
  decide

/-- C8 (code evaluation at the failing input): after creating alice, `login`
with the correct password returns the non-empty token `tok64`, but
`validate_session` on that very token raises `TypeError` — the aware/naive
datetime comparison — instead of returning the alice user; `login` with a
wrong password does return `None` and leaves the store unchanged. -/
theorem login_token_validate_raises :
    (login aliceStore "alice" "secret123" zeroBytes 1000 30).1 = .ok (some tok64)
    ∧ tok64 ≠ ""
    ∧ validate_session (login aliceStore "alice" "secret123" zeroBytes 1000 30).2 tok64 2000
        = .error .typeError
    ∧ login aliceStore "alice" "wrongpass" zeroBytes 1000 30 = (.ok none, aliceStore) := by
  decide

/-- C10 (code evaluation at the failing input): `validate_session` is not
total on the engine's own stores — `aliceSessStore` is reachable from the
empty store via `create_user` then `create_session`, and `validate_session`
on the engine's own token raises `TypeError` rather than returning a user or
`None`: the expiry `create_session` wrote is naive while the comparison time
inside `Session.is_valid` is aware. -/
theorem validate_session_not_total_on_reachable :
    Reachable aliceSessStore
    ∧ validate_session aliceSessStore tok64 2500000 = .error .typeError :=
  ⟨Reachable.step
      (Reachable.step Reachable.empty
        (Step.create_user_step Store.empty "alice" "secret123"))
      (Step.create_session_step aliceStore 1 zeroBytes 1000 30),
    by decide⟩

/-! ### C9: the active flag is not consulted -/

/-- An inactive user row (`is_active = False`), as the data model admits. -/
def carol : User :=
  { id := 7, username := "carol", password_hash := hash_password "pw", is_active := false }

/-- A store whose only user is inactive. -/
def inactiveStore : Store :=
  { users := [carol], sessions := [], nextUserId := 8, nextSessionId := 1 }

/-- C9 counterexample: user 7 exists but has `is_active = false`, and
`create_session` nonetheless succeeds and persists a session owned by 7 —
the lookup checks existence only and never reads the active flag — so a
session is issued for an inactive user, contrary to the claim. -/
theorem create_session_inactive_counterexample :
    carol.is_active = false
    ∧ carol ∈ inactiveStore.users
    ∧ (create_session inactiveStore 7 zeroBytes 0 30).1 = .ok tok64
    ∧ (∃ s ∈ (create_session inactiveStore 7 zeroBytes 0 30).2.sessions,
        s.user_id = 7) := by
  decide

/-- C9 amended: a session is created exactly for an existing user, active or
not: whenever some stored user carries the requested id — regardless of that
user's active flag — and the drawn token is fresh, `create_session` succeeds
and persists a session owned by that id. -/
theorem create_session_requires_existence_only (st : Store) (uid : Int)
    (b : List Nat) (now dur : Int)
    (huser : ∃ u ∈ st.users, u.id = uid)
    (hfresh : ∀ s ∈ st.sessions, s.token ≠ token_hex b) :
    (create_session st uid b now dur).1 = .ok (token_hex b)
    ∧ ∃ s ∈ (create_session st uid b now dur).2.sessions,
        s.user_id = uid ∧ s.token = token_hex b := by
  cases hf : st.users.find? (fun v => v.id == uid) with
  | none =>
      obtain ⟨u, hu, huid⟩ := huser
      exact absurd huid (by simpa using List.find?_eq_none.mp hf u hu)
  | some v =>
      have ha : st.sessions.any (fun s => s.token == token_hex b) = false := by
        rw [List.any_eq_false]
        intro s hs
        simpa using hfresh s hs
      refine ⟨by simp [create_session, hf, ha], ?_⟩
      refine ⟨{ id := st.nextSessionId, user_id := uid, token := token_hex b,
                expires_at := some { aware := false, ts := now + dur * secondsPerDay },
                is_revoked := false }, ?_, rfl, rfl⟩
      simp [create_session, hf, ha]

/-- Witness for the amended C9 at the inactive-user store. -/
theorem create_session_requires_existence_only_witness :
    (∃ u ∈ inactiveStore.users, u.id = 7)
    ∧ (∃ s ∈ (create_session inactiveStore 7 oneBytes 0 30).2.sessions,
        s.user_id = 7 ∧ s.token = token_hex oneBytes) :=
  ⟨by decide,
    (create_session_requires_existence_only inactiveStore 7 oneBytes 0 30
      (by decide) (by decide)).2⟩

end SessionMgr
